import Mathlib

/-!
Verification of the gym attendance backend: a shallow embedding of the
Membership Ledger (authController.ts), the Attendance Session Tracker
(attendance controller), and the Scheduled Reconciliation Runner
(schedulerService.ts), together with theorems settling the claims about
membership lifecycle, the monthly usage cap, the expiration sweep, the
stale-session closure job, and geofence validation.

Conventions of the embedding:
- Calendar instants mirror the accessors the code reads off a moment
  object: year, month (0 to 11, as moment month()), day of month, day of
  week (0 Sunday .. 6 Saturday, as moment day()), hour and minute.
  Comparisons (moment isAfter / mongo lt on dates) are the lexicographic
  order on (year, month, day, hour, minute).
- Mongoose save() is modelled by returning the updated record; handler
  paths that return before save() leave the stored state unchanged.
- Notification dispatch is modelled by returning the list of notified
  member ids (and a count of staff notices); delivery is out of scope.
-/

namespace Gym

/-- Membership plan enum of the User schema:
none, 1-month, 3-month, 6-month, 1-year. -/
inductive Plan
  | none
  | oneMonth
  | threeMonth
  | sixMonth
  | oneYear
deriving DecidableEq

/-- Membership status enum of the User schema: pending, active, expired. -/
inductive MemStatus
  | pending
  | active
  | expired
deriving DecidableEq

/-- A calendar instant, carrying exactly the fields the code reads from a
moment object: year, zero-based month, day of month, day of week
(0 Sunday .. 6 Saturday) and time of day. -/
structure CalTime where
  year : Nat
  month : Nat
  day : Nat
  dow : Nat
  hour : Nat
  minute : Nat
deriving DecidableEq

/-- Strict chronological order on calendar instants (moment isAfter and
the mongo lt comparison on Date fields): lexicographic on
(year, month, day, hour, minute). -/
def CalTime.ltB (a b : CalTime) : Bool :=
  if a.year ≠ b.year then a.year < b.year
  else if a.month ≠ b.month then a.month < b.month
  else if a.day ≠ b.day then a.day < b.day
  else if a.hour ≠ b.hour then a.hour < b.hour
  else a.minute < b.minute

/-- moment startOf day: same calendar day at 00:00. -/
def CalTime.startOfDay (t : CalTime) : CalTime :=
  { t with hour := 0, minute := 0 }

/-- The day-granularity key (year, month, day) under which attendance
records are stored, produced by startOf day and toDate in the code. -/
structure DateKey where
  year : Nat
  month : Nat
  day : Nat
deriving DecidableEq

/-- Day key of an instant. -/
def CalTime.dateKey (t : CalTime) : DateKey :=
  ⟨t.year, t.month, t.day⟩

/-- Gregorian leap year rule, as implemented by moment. -/
def isLeapYear (y : Nat) : Bool :=
  (y % 4 == 0 && y % 100 != 0) || y % 400 == 0

/-- Number of days of a zero-based month in a given year. -/
def daysInMonth (y m : Nat) : Nat :=
  if m == 1 then (if isLeapYear y then 29 else 28)
  else if m == 3 || m == 5 || m == 8 || m == 10 then 30
  else 31

/-- moment add months: calendar-wise month addition, keeping the day of
month but clamping it to the length of the target month, and keeping the
time of day. The dow field is carried unchanged because no code path
reads the weekday of a computed expiry. -/
def CalTime.addMonths (t : CalTime) (n : Nat) : CalTime :=
  let total := t.year * 12 + t.month + n
  { t with
    year := total / 12
    month := total % 12
    day := min t.day (daysInMonth (total / 12) (total % 12)) }

/-- Months of validity purchased by each plan; moment add of 1 year is
calendar-equivalent to adding 12 months. -/
def planMonths : Plan → Nat
  | Plan.none => 0
  | Plan.oneMonth => 1
  | Plan.threeMonth => 3
  | Plan.sixMonth => 6
  | Plan.oneYear => 12

/-- The switch statement of updateMembership: expiry is start plus the
plan duration, added calendar-wise. -/
def applyPlan (p : Plan) (start : CalTime) : CalTime :=
  start.addMonths (planMonths p)

/-- The embedded membership sub-document of the User schema
(models/User.ts lines 78 to 99). startDate and expiryDate are plain Date
paths without a default, so they can be unset; lastResetDate has default
Date.now but is read defensively through moment in the controllers, so it
is kept optional as well. -/
structure Membership where
  plan : Plan
  startDate : Option CalTime
  expiryDate : Option CalTime
  status : MemStatus
  monthlyDayCount : Nat
  lastResetDate : Option CalTime
deriving DecidableEq

/-- The membership produced for a freshly registered user who supplied no
plan, by the schema path defaults of models/User.ts: plan none, status
pending, counter 0, lastResetDate now, start and expiry unset. -/
def defaultMembership (now : CalTime) : Membership :=
  { plan := Plan.none
    startDate := Option.none
    expiryDate := Option.none
    status := MemStatus.pending
    monthlyDayCount := 0
    lastResetDate := some now }

/-- The membership built by the registration handler (authController.ts
register) when requestedPlan is admission: plan none but status active,
with start and expiry both set to now. -/
def admissionMembership (now : CalTime) : Membership :=
  { plan := Plan.none
    startDate := some now
    expiryDate := some now
    status := MemStatus.active
    monthlyDayCount := 0
    lastResetDate := some now }

/-- The 26-entries-per-month cap checked by the clock-in handler. -/
def MONTHLY_CAP : Nat := 26

/-- The claimed Ledger invariant: an active membership names a real plan
and has an expiry date. -/
def membershipInvariant (m : Membership) : Prop :=
  m.status = MemStatus.active → m.plan ≠ Plan.none ∧ m.expiryDate.isSome

/-- The part of the invariant that the status flips preserve: the plan is
real and the expiry date is set. -/
def planExpirySet (m : Membership) : Prop :=
  m.plan ≠ Plan.none ∧ m.expiryDate.isSome

/-- Lift a membership predicate to an optional membership. -/
def optionInv (f : Membership → Prop) : Option Membership → Prop
  | some m => f m
  | Option.none => True

/-- Error outcomes of the updateMembership handler (authController.ts
lines 491 to 584): invalid plan is the 400 on the validPlans check,
activeConflict the 403 for an active unexpired membership, and
pendingConflict the 400 for an already pending request. -/
inductive UpdateErr
  | invalidPlan
  | activeConflict
  | pendingConflict
deriving DecidableEq

/-- The active-and-unexpired restriction check of updateMembership: the
stored membership has status active and its expiry, read through moment,
is strictly after now. An unset expiry reads as now under moment, and now
is not after now, so it does not conflict. -/
def hasActiveUnexpired (cur : Option Membership) (now : CalTime) : Bool :=
  match cur with
  | some m =>
    m.status == MemStatus.active &&
      (match m.expiryDate with
       | some e => now.ltB e
       | Option.none => false)
  | Option.none => false

/-- The pending-request check of updateMembership. -/
def hasPending (cur : Option Membership) : Bool :=
  match cur with
  | some m => m.status == MemStatus.pending
  | Option.none => false

/-- The membership plan request handler updateMembership
(authController.ts lines 491 to 584), after the user lookup: rejects an
invalid plan, rejects while a membership is active and unexpired, rejects
while a request is pending, and otherwise replaces the membership with a
pending one whose expiry is start plus the plan duration, carrying the
old usage counter and reset date forward. -/
def updateMembership (cur : Option Membership) (plan : Plan)
    (startDate : Option CalTime) (now : CalTime) :
    Except UpdateErr Membership :=
  if plan = Plan.none then Except.error UpdateErr.invalidPlan
  else if hasActiveUnexpired cur now then Except.error UpdateErr.activeConflict
  else if hasPending cur then Except.error UpdateErr.pendingConflict
  else
    let start := startDate.getD now
    Except.ok
      { plan := plan
        startDate := some start
        expiryDate := some (applyPlan plan start)
        status := MemStatus.pending
        monthlyDayCount := (cur.map Membership.monthlyDayCount).getD 0
        lastResetDate := some (((cur.bind Membership.lastResetDate)).getD now) }

/-- The stored membership after a handler call: save() happens only on the
ok path, so an error leaves the previous membership in place. -/
def storedAfter (cur : Option Membership) (r : Except UpdateErr Membership) :
    Option Membership :=
  match r with
  | Except.ok m => some m
  | Except.error _ => cur

/-- Error outcome of the approveMembership handler: the 404 when the user
or the membership sub-document is missing. -/
inductive ApproveErr
  | notFound
deriving DecidableEq

/-- The membership approval handler approveMembership (authController.ts
lines 585 to 615), after the role guard: 404 when the user or membership
is missing, otherwise it sets status to active unconditionally and
saves. -/
def approveMembership (cur : Option Membership) : Except ApproveErr Membership :=
  match cur with
  | Option.none => Except.error ApproveErr.notFound
  | some m => Except.ok { m with status := MemStatus.active }

/-- One attendance record (models/Attendance.ts): keyed by the member and
the calendar day, with the clock-in instant, an optional clock-out, and
the on-time or late flag fixed at clock-in. -/
structure Session where
  date : DateKey
  clockIn : CalTime
  clockOut : Option CalTime
  late : Bool
deriving DecidableEq

/-- The persisted state the clock-in handlers read and write for one
member: the membership sub-document and the list of attendance records of
that member. -/
structure MemberState where
  membership : Option Membership
  sessions : List Session
deriving DecidableEq

/-- Outcomes of the self-service clockIn handler, in the order its guard
chain produces them. -/
inductive ClockInResult
  | missingCoordinates
  | outOfRange
  | closedSaturday
  | closedHours
  | membershipRequired
  | capExceeded
  | expired
  | alreadyClockedIn
  | success
deriving DecidableEq

/-- The month-rollover test of the clock-in handlers: the month or the
year of now differs from the month or year of lastResetDate, which reads
as now itself when the field is missing (moment of undefined). -/
def monthRollover (now : CalTime) (lastReset : Option CalTime) : Bool :=
  let lr := lastReset.getD now
  now.month != lr.month || now.year != lr.year

/-- The in-memory counter reset done by clockIn before its membership
checks: on a month rollover the counter goes to 0 and lastResetDate to
now; otherwise the membership is untouched. -/
def resetIfRollover (now : CalTime) (m : Membership) : Membership :=
  if monthRollover now m.lastResetDate then
    { m with monthlyDayCount := 0, lastResetDate := some now }
  else m

/-- The expiry test of clockIn: now is strictly after the stored expiry
date, which reads as now itself when unset (moment of undefined), so an
unset expiry never reads as expired here. -/
def expiredAt (expiry : Option CalTime) (now : CalTime) : Bool :=
  match expiry with
  | some e => e.ltB now
  | Option.none => false

/-- Office start 09:00 plus the 15 minute grace period, in minutes from
midnight: a clock-in later than this is recorded late. -/
def LATE_CUTOFF : Nat := 9 * 60 + 15

/-- The lateness rule of the clock-in handlers: now.diff(officeStart) in
minutes exceeds the threshold. -/
def isLate (now : CalTime) : Bool :=
  LATE_CUTOFF < now.hour * 60 + now.minute

/-- The self-service clock-in handler (attendance controller, clockIn),
parametrised by the geofence verdict geo for the submitted coordinates.
Guard order as in the source: missing (falsy) coordinates, geofence,
Saturday closure, operating hours 05 to 20, then the in-memory month
rollover reset, membership existence with a real plan and active status,
the 26-entry monthly cap, expiry (persisting the expired status), the
one-session-per-day check, and finally session creation with the counter
increment. Failure paths before a save() leave the stored state
unchanged. -/
def clockIn (geo : Rat → Rat → Bool) (lat lon : Rat)
    (st : MemberState) (now : CalTime) : ClockInResult × MemberState :=
  if lat = 0 ∨ lon = 0 then (ClockInResult.missingCoordinates, st)
  else if !geo lat lon then (ClockInResult.outOfRange, st)
  else if now.dow == 6 then (ClockInResult.closedSaturday, st)
  else if now.hour < 5 || 20 ≤ now.hour then (ClockInResult.closedHours, st)
  else
    match st.membership with
    | Option.none => (ClockInResult.membershipRequired, st)
    | some m0 =>
      if (resetIfRollover now m0).plan == Plan.none ||
          (resetIfRollover now m0).status != MemStatus.active then
        (ClockInResult.membershipRequired, st)
      else if MONTHLY_CAP ≤ (resetIfRollover now m0).monthlyDayCount then
        (ClockInResult.capExceeded, st)
      else if expiredAt (resetIfRollover now m0).expiryDate now then
        (ClockInResult.expired,
          MemberState.mk
            (some { resetIfRollover now m0 with status := MemStatus.expired })
            st.sessions)
      else if st.sessions.any (fun s => s.date == now.dateKey) then
        (ClockInResult.alreadyClockedIn, st)
      else
        (ClockInResult.success,
          { membership :=
              some { resetIfRollover now m0 with
                monthlyDayCount := (resetIfRollover now m0).monthlyDayCount + 1
                status := MemStatus.active }
            sessions :=
              { date := now.dateKey
                clockIn := now
                clockOut := Option.none
                late := isLate now } :: st.sessions })

/-- Outcomes of the staff manual clock-in handler. -/
inductive AdminClockInResult
  | alreadyClockedIn
  | success
deriving DecidableEq

/-- The staff manual clock-in handler (attendance controller,
adminClockIn), after the role guard and user lookup: it refuses a second
session for the day, then creates the session unconditionally; the
membership gate of the source is commented out, and no monthly-cap check
is performed. If the membership is active, the counter is set to 1 on a
month rollover and incremented otherwise. -/
def adminClockIn (st : MemberState) (now : CalTime) :
    AdminClockInResult × MemberState :=
  if st.sessions.any (fun s => s.date == now.dateKey) then
    (AdminClockInResult.alreadyClockedIn, st)
  else
    let mem2 : Option Membership :=
      match st.membership with
      | some m =>
        if m.status == MemStatus.active then
          if monthRollover now m.lastResetDate then
            some { m with monthlyDayCount := 1, lastResetDate := some now }
          else
            some { m with monthlyDayCount := m.monthlyDayCount + 1 }
        else some m
      | Option.none => Option.none
    (AdminClockInResult.success,
      { membership := mem2
        sessions :=
          { date := now.dateKey
            clockIn := now
            clockOut := Option.none
            late := isLate now } :: st.sessions })

/-- The monthly-cap invariant over a member state: while the membership is
active its counter stays within the cap. -/
def capInvariant (st : MemberState) : Prop :=
  optionInv
    (fun m => m.status = MemStatus.active → m.monthlyDayCount ≤ MONTHLY_CAP)
    st.membership

/-- Run a list of clock-in attempts in order, threading the member state;
returns the final state and the list of per-attempt outcomes. -/
def runClockIns (geo : Rat → Rat → Bool) (lat lon : Rat) :
    MemberState → List CalTime → MemberState × List ClockInResult
  | st, [] => (st, [])
  | st, t :: ts =>
    ((runClockIns geo lat lon (clockIn geo lat lon st t).2 ts).1,
     (clockIn geo lat lon st t).1 ::
       (runClockIns geo lat lon (clockIn geo lat lon st t).2 ts).2)

/-- An attempt instant that passes the schedule gate and, for the given
membership fields, neither rolls the month over nor reads as expired. -/
def goodAttempt (lastReset expiry : Option CalTime) (t : CalTime) : Bool :=
  t.dow != 6 && 5 ≤ t.hour && t.hour < 20 &&
    !monthRollover t lastReset && !expiredAt expiry t

/-- The attempt days are pairwise distinct and none of them already has a
session, accumulating the used day keys in order. -/
def freshDays (used : List DateKey) : List CalTime → Bool
  | [] => true
  | t :: ts => !used.contains t.dateKey && freshDays (t.dateKey :: used) ts

/-- A member record as the expiration sweep sees it: an id for
notification targeting and the membership sub-document. -/
structure LedgerUser where
  id : Nat
  membership : Option Membership
deriving DecidableEq

/-- The mongo query filter of the expiration sweep
(schedulerService.ts expireMemberships): membership.status is active and
membership.expiryDate is strictly before the given cutoff; a record with
no membership or no expiry date matches nothing. -/
def shouldExpire (cutoff : CalTime) (u : LedgerUser) : Bool :=
  match u.membership with
  | some m =>
    m.status == MemStatus.active &&
      (match m.expiryDate with
       | some e => e.ltB cutoff
       | Option.none => false)
  | Option.none => false

/-- The per-user mutation of the sweep: mark the membership expired. -/
def expireUser (u : LedgerUser) : LedgerUser :=
  match u.membership with
  | some m => { u with membership := some { m with status := MemStatus.expired } }
  | Option.none => u

/-- The daily expiration sweep (schedulerService.ts expireMemberships):
the cutoff is the start of the current day, so only memberships that
expired before today match. Every matching member is marked expired and
receives one notification; if anyone matched, each of the adminCount
staff accounts receives one aggregated notice. Returns the updated
member list, the ids notified, and the number of staff notices. -/
def expireMemberships (users : List LedgerUser) (now : CalTime)
    (adminCount : Nat) : List LedgerUser × List Nat × Nat :=
  let today := now.startOfDay
  let affected := users.filter (shouldExpire today)
  (users.map (fun u => if shouldExpire today u then expireUser u else u),
   affected.map LedgerUser.id,
   if affected.length = 0 then 0 else adminCount)

/-- An attendance record as the stale-session job sees it, with instants
as minute counts on one absolute axis (the job only subtracts a fixed
duration and compares instants, so no calendar structure is involved). -/
structure ZSession where
  clockIn : Int
  clockOut : Option Int
deriving DecidableEq

/-- The four hour staleness window of the zombie-session job, in
minutes. -/
def STALE_WINDOW : Int := 4 * 60

/-- The mongo query filter of autoClockOutZombieSessions: clockOut absent
and clockIn strictly before now minus the staleness window. -/
def isZombie (now : Int) (s : ZSession) : Bool :=
  s.clockOut == Option.none && s.clockIn < now - STALE_WINDOW

/-- The per-session mutation of the job: clockOut is forced to clockIn
plus the staleness window. -/
def forceClose (s : ZSession) : ZSession :=
  { s with clockOut := some (s.clockIn + STALE_WINDOW) }

/-- The pointwise effect of the zombie-session job on one record:
force-close it when it matches the filter, leave it alone otherwise. -/
def zombieStep (now : Int) (s : ZSession) : ZSession :=
  if isZombie now s then forceClose s else s

/-- The hourly stale-session closure job (schedulerService.ts
autoClockOutZombieSessions): every session matching the zombie filter is
force-closed and its member notified once. Returns the updated session
list and the number of member notifications. -/
def autoClockOutZombieSessions (sessions : List ZSession) (now : Int) :
    List ZSession × Nat :=
  (sessions.map (zombieStep now),
   (sessions.filter (isZombie now)).length)

/-- A registered geofence zone as the validator reads it from the store
(models/Location.ts, already filtered to isActive): center coordinate and
radius in meters. -/
structure Zone where
  latitude : ℝ
  longitude : ℝ
  radius : ℝ

/-- Result of geofence validation: the verdict and, on failure, the
nearest distance for the diagnostic message (the source rounds it for
display; the raw value is kept here). -/
structure GeofenceResult where
  isValid : Bool
  distance : Option ℝ

/-- Hardcoded gym latitude of the attendance controller. -/
noncomputable def GYM_LATITUDE : ℝ := 27.684185017430245

/-- Hardcoded gym longitude of the attendance controller. -/
noncomputable def GYM_LONGITUDE : ℝ := 85.33338702577204

/-- Hardcoded gym radius in meters of the attendance controller. -/
def GYM_RADIUS_METERS : ℝ := 100

/-- JavaScript Math.atan2, written over the reals by cases on the
quadrant. -/
noncomputable def atan2 (y x : ℝ) : ℝ :=
  if 0 < x then Real.arctan (y / x)
  else if x < 0 ∧ 0 ≤ y then Real.arctan (y / x) + Real.pi
  else if x < 0 then Real.arctan (y / x) - Real.pi
  else if 0 < y then Real.pi / 2
  else if y < 0 then -(Real.pi / 2)
  else 0

/-- The haversine great-circle distance in meters of the attendance
controller (calculateDistance), with earth radius 6371e3, over the
reals. -/
noncomputable def calculateDistance (lat1 lon1 lat2 lon2 : ℝ) : ℝ :=
  let R : ℝ := 6371000
  let phi1 := lat1 * Real.pi / 180
  let phi2 := lat2 * Real.pi / 180
  let dphi := (lat2 - lat1) * Real.pi / 180
  let dlam := (lon2 - lon1) * Real.pi / 180
  let a := Real.sin (dphi / 2) * Real.sin (dphi / 2) +
    Real.cos phi1 * Real.cos phi2 * Real.sin (dlam / 2) * Real.sin (dlam / 2)
  let c := 2 * atan2 (Real.sqrt a) (Real.sqrt (1 - a))
  R * c

/-- The zone loop of validateGeofence: track the minimum distance seen so
far (starting from JavaScript Infinity, modelled as no value yet) and
stop at the first zone whose distance is within its radius. Returns the
verdict and the minimum distance. -/
noncomputable def zoneLoop (lat lon : ℝ) :
    List Zone → Option ℝ → Bool × Option ℝ
  | [], minD => (false, minD)
  | z :: rest, minD =>
    let dist := calculateDistance z.latitude z.longitude lat lon
    let minD2 :=
      match minD with
      | Option.none => some dist
      | some d0 => if dist < d0 then some dist else some d0
    if dist ≤ z.radius then (true, minD2) else zoneLoop lat lon rest minD2

/-- The geofence validator (attendance controller, validateGeofence),
given the list of active zones from the store: when the store is empty it
falls back to the hardcoded gym zone, otherwise a coordinate is valid if
it is within any one active zone, and on failure the nearest distance is
reported. -/
noncomputable def validateGeofence (locations : List Zone) (lat lon : ℝ) :
    GeofenceResult :=
  if locations.isEmpty then
    let dist := calculateDistance GYM_LATITUDE GYM_LONGITUDE lat lon
    if dist ≤ GYM_RADIUS_METERS then ⟨true, Option.none⟩
    else ⟨false, some dist⟩
  else
    let scan := zoneLoop lat lon locations Option.none
    if scan.1 then ⟨true, Option.none⟩
    else ⟨false, scan.2⟩

/-!
Concrete sample data used by witnesses and counterexamples.
-/

/-- Wednesday 2025-01-15 10:00. -/
def tJan : CalTime := ⟨2025, 0, 15, 3, 10, 0⟩

/-- Tuesday 2025-06-10 10:00. -/
def tNow : CalTime := ⟨2025, 5, 10, 2, 10, 0⟩

/-- A membership that has already expired. -/
def mExpiredSample : Membership :=
  { plan := Plan.oneMonth
    startDate := some ⟨2024, 0, 1, 1, 9, 0⟩
    expiryDate := some ⟨2024, 1, 1, 4, 9, 0⟩
    status := MemStatus.expired
    monthlyDayCount := 3
    lastResetDate := some ⟨2024, 1, 1, 4, 0, 0⟩ }

/-- A membership that is active and unexpired at tNow. -/
def mActiveFuture : Membership :=
  { plan := Plan.threeMonth
    startDate := some ⟨2025, 4, 1, 4, 9, 0⟩
    expiryDate := some ⟨2025, 7, 1, 5, 9, 0⟩
    status := MemStatus.active
    monthlyDayCount := 5
    lastResetDate := some ⟨2025, 5, 1, 0, 0, 0⟩ }

/-- A pending membership request awaiting approval. -/
def mPendingSample : Membership :=
  { mActiveFuture with status := MemStatus.pending }

/-- A geofence verdict that accepts every coordinate. -/
def geoAlways : Rat → Rat → Bool := fun _ _ => true

/-- A geofence verdict that rejects every coordinate. -/
def geoNever : Rat → Rat → Bool := fun _ _ => false

/-- An active one-month member with counter 0, last reset on
2025-06-01 and expiry on 2025-08-01. -/
def mJune : Membership :=
  { plan := Plan.oneMonth
    startDate := some ⟨2025, 5, 1, 0, 9, 0⟩
    expiryDate := some ⟨2025, 7, 1, 5, 9, 0⟩
    status := MemStatus.active
    monthlyDayCount := 0
    lastResetDate := some ⟨2025, 5, 1, 0, 9, 0⟩ }

/-- Twenty-six clock-in attempts at 10:00 on June 1 to June 26, 2025. -/
def juneTimes : List CalTime :=
  (List.range 26).map (fun i => ⟨2025, 5, i + 1, 0, 10, 0⟩)

/-- A twenty-seventh attempt on June 27, 2025 at 10:00. -/
def tJune27 : CalTime := ⟨2025, 5, 27, 0, 10, 0⟩

/-- The first attempt after the month rollover: July 1, 2025 at 10:00. -/
def tJuly : CalTime := ⟨2025, 6, 1, 2, 10, 0⟩

/-- The June member with the counter already at the 26-entry cap. -/
def mCap : Membership := { mJune with monthlyDayCount := 26 }

/-- The capped June member, with no session yet today. -/
def stCap : MemberState := ⟨some mCap, []⟩

/-- A fresh member state for the June member. -/
def stJune : MemberState := ⟨some mJune, []⟩

/-- An expiry instant at 08:00 on 2025-06-10: before tNow on the same
day. -/
def e7 : CalTime := ⟨2025, 5, 10, 2, 8, 0⟩

/-- A member whose membership is still active but expired two hours ago,
on the morning of the sweep day. -/
def u7 : LedgerUser :=
  ⟨1, some
    { plan := Plan.oneMonth
      startDate := some ⟨2025, 4, 10, 6, 8, 0⟩
      expiryDate := some e7
      status := MemStatus.active
      monthlyDayCount := 4
      lastResetDate := some ⟨2025, 5, 1, 0, 0, 0⟩ }⟩

/-- An open session clocked in at minute 600 of the absolute axis. -/
def z8 : ZSession := ⟨600, Option.none⟩

/-!
Helper lemmas shared by the claim theorems.
-/

theorem contains_map_date (ss : List Session) (d : DateKey) :
    (ss.map Session.date).contains d = ss.any (fun s => s.date == d) := by
  induction ss with
  | nil => rfl
  | cons s rest ih =>
    simp only [List.map_cons, List.contains_cons, List.any_cons, ih]
    rw [Bool.eq_iff_iff]
    simp only [Bool.or_eq_true, beq_iff_eq]
    constructor
    · rintro (h | h)
      · exact Or.inl h.symm
      · exact Or.inr h
    · rintro (h | h)
      · exact Or.inl h.symm
      · exact Or.inr h

theorem resetIfRollover_fields (now : CalTime) (m : Membership) :
    (resetIfRollover now m).plan = m.plan ∧
    (resetIfRollover now m).expiryDate = m.expiryDate ∧
    (resetIfRollover now m).status = m.status ∧
    (resetIfRollover now m).startDate = m.startDate := by
  unfold resetIfRollover
  split <;> exact ⟨rfl, rfl, rfl, rfl⟩

theorem planExpirySet_update (now : CalTime) (m : Membership)
    (h : planExpirySet m) (stat : MemStatus) (cnt : Nat) :
    planExpirySet
      { resetIfRollover now m with status := stat, monthlyDayCount := cnt } := by
  unfold planExpirySet at h ⊢
  unfold resetIfRollover
  split
  · exact ⟨h.1, h.2⟩
  · exact ⟨h.1, h.2⟩

/-- C10: a clock-in request in which latitude or longitude equals 0 (a
falsy coordinate) is rejected with the missing-coordinates validation
error before the geofence, schedule, or membership checks run, for every
geofence verdict and every member state, and the stored state is
unchanged (no session created, no member state modified). -/
theorem clockInMissingCoordinates (geo : Rat → Rat → Bool) (lat lon : Rat)
    (st : MemberState) (now : CalTime) (h : lat = 0 ∨ lon = 0) :
    clockIn geo lat lon st now = (ClockInResult.missingCoordinates, st) := by
  unfold clockIn
  rw [if_pos h]

/-- Witness for C10: latitude 0 with a geofence that rejects everything
and a member in good standing is still answered with the
missing-coordinates error and an unchanged state. -/
theorem clockInMissingCoordinatesWitness :
    clockIn geoNever 0 5 stJune tNow = (ClockInResult.missingCoordinates, stJune) :=
  clockInMissingCoordinates geoNever 0 5 stJune tNow (Or.inl rfl)

/-- Counterexample to C2: approving a member whose membership status is
expired (so no pending request exists) does not fail, and sets the status
to active. -/
theorem approveNonpendingSucceeds :
    approveMembership (some mExpiredSample) =
      Except.ok { mExpiredSample with status := MemStatus.active } ∧
    mExpiredSample.status = MemStatus.expired :=
  ⟨rfl, rfl⟩

/-- C2 as amended: the approval operation fails only when the user or the
membership sub-document is missing; otherwise it sets the membership
status to active unconditionally, whatever the prior status, and leaves
every other field unchanged. -/
theorem approveMembershipSpec :
    approveMembership Option.none = Except.error ApproveErr.notFound ∧
    ∀ m : Membership,
      approveMembership (some m) = Except.ok { m with status := MemStatus.active } :=
  ⟨rfl, fun _ => rfl⟩

theorem zombieStep_closes (now : Int) (s : ZSession) (h : isZombie now s = true) :
    zombieStep now s = ⟨s.clockIn, some (s.clockIn + STALE_WINDOW)⟩ := by
  unfold zombieStep
  rw [if_pos h]
  rfl

theorem zombieStep_closed_stable (now2 now : Int) (s : ZSession)
    (h : isZombie now s = true) :
    zombieStep now2 (zombieStep now s) = zombieStep now s := by
  rw [zombieStep_closes now s h]
  unfold zombieStep
  rw [if_neg]
  simp [isZombie]

/-- C8: the stale-session job force-closes exactly the sessions with no
clockOut and a clockIn older than the four hour window, setting clockOut
to clockIn plus the window; it notifies one member per closed session;
sessions not matching are unchanged; and a second run of the job, at any
later (or equal) instant, leaves every session closed by the first run
untouched, because it no longer matches the absent-clockOut filter. -/
theorem autoClockOutZombieSpec (sessions : List ZSession) (now now2 : Int) :
    (∀ s : ZSession, isZombie now s = true →
      zombieStep now s = ⟨s.clockIn, some (s.clockIn + STALE_WINDOW)⟩) ∧
    (∀ s : ZSession, isZombie now s = false → zombieStep now s = s) ∧
    (autoClockOutZombieSessions sessions now).1 = sessions.map (zombieStep now) ∧
    (autoClockOutZombieSessions sessions now).2 =
      (sessions.filter (isZombie now)).length ∧
    ∀ i (h : i < sessions.length)
      (h1 : i < (autoClockOutZombieSessions sessions now).1.length)
      (h2 : i < ((autoClockOutZombieSessions
        (autoClockOutZombieSessions sessions now).1 now2).1).length),
      isZombie now (sessions.get ⟨i, h⟩) = true →
      ((autoClockOutZombieSessions sessions now).1).get ⟨i, h1⟩ =
        ⟨(sessions.get ⟨i, h⟩).clockIn,
          some ((sessions.get ⟨i, h⟩).clockIn + STALE_WINDOW)⟩ ∧
      ((autoClockOutZombieSessions (autoClockOutZombieSessions sessions now).1
          now2).1).get ⟨i, h2⟩ =
        ((autoClockOutZombieSessions sessions now).1).get ⟨i, h1⟩ := by
  refine ⟨fun s h => zombieStep_closes now s h, ?_, rfl, rfl, ?_⟩
  · intro s h
    unfold zombieStep
    rw [if_neg]
    simp [h]
  · intro i h h1 h2 hz
    have hmap1 : ((autoClockOutZombieSessions sessions now).1).get ⟨i, h1⟩ =
        zombieStep now (sessions.get ⟨i, h⟩) := by
      simp [autoClockOutZombieSessions, List.get_eq_getElem, List.getElem_map]
    have hmap2 : ((autoClockOutZombieSessions
        (autoClockOutZombieSessions sessions now).1 now2).1).get ⟨i, h2⟩ =
        zombieStep now2 (zombieStep now (sessions.get ⟨i, h⟩)) := by
      simp [autoClockOutZombieSessions, List.get_eq_getElem, List.getElem_map]
    constructor
    · rw [hmap1]
      exact zombieStep_closes now _ hz
    · rw [hmap1, hmap2]
      exact zombieStep_closed_stable now2 now _ hz

/-- Witness for C8: a session clocked in at minute 600 and never closed
is, at minute 900 (five hours later), force-closed to minute 840, and a
second run one hour later leaves it as is. -/
theorem autoClockOutZombieSpecWitness :
    ((autoClockOutZombieSessions [z8] 900).1).get ⟨0, by decide⟩ =
      ⟨600, some 840⟩ ∧
    ((autoClockOutZombieSessions (autoClockOutZombieSessions [z8] 900).1
        960).1).get ⟨0, by decide⟩ =
      ((autoClockOutZombieSessions [z8] 900).1).get ⟨0, by decide⟩ := by
  have h5 := (autoClockOutZombieSpec [z8] 900 960).2.2.2.2 0 (by decide)
    (by decide) (by decide) (by decide)
  exact ⟨h5.1, h5.2⟩

theorem atan2_zero_one : atan2 0 1 = 0 := by
  unfold atan2
  rw [if_pos (by norm_num : (0 : ℝ) < 1)]
  simp [Real.arctan_zero]

theorem calculateDistance_self (lat lon : ℝ) :
    calculateDistance lat lon lat lon = 0 := by
  unfold calculateDistance
  simp [sub_self, Real.sin_zero, Real.sqrt_zero, Real.sqrt_one, atan2_zero_one]

/-- Counterexample to C9: with no active zones configured the validator
does not fail closed; the hardcoded gym center itself is accepted as
valid. -/
theorem emptyStoreGymCenterValid :
    (validateGeofence [] GYM_LATITUDE GYM_LONGITUDE).isValid = true := by
  unfold validateGeofence
  norm_num [calculateDistance_self, GYM_RADIUS_METERS]

/-- C9 as amended: when no active zones are configured the validator
falls back to the single hardcoded gym zone, so a coordinate is valid
exactly when its haversine distance to the hardcoded center is within the
100 meter radius; it does not treat every coordinate as invalid. -/
theorem validateGeofenceEmptyFallback (lat lon : ℝ) :
    (validateGeofence [] lat lon).isValid = true ↔
      calculateDistance GYM_LATITUDE GYM_LONGITUDE lat lon ≤ GYM_RADIUS_METERS := by
  unfold validateGeofence
  simp only [List.isEmpty_nil, if_true]
  split
  next h => simpa using h
  next h => simpa using h

/-- C3: for a member whose membership is active and unexpired, or who has
a pending request, a plan request (with a valid plan) fails with the
conflict answer and the stored membership is unchanged; in particular, a
second request issued while the first successful request is still pending
always fails with the pending conflict and leaves the stored membership
unchanged. -/
theorem updateMembershipConflicts (cur : Option Membership) (p : Plan)
    (sd : Option CalTime) (now : CalTime) (hp : ¬ p = Plan.none) :
    (hasActiveUnexpired cur now = true →
      updateMembership cur p sd now = Except.error UpdateErr.activeConflict ∧
      storedAfter cur (updateMembership cur p sd now) = cur) ∧
    (hasActiveUnexpired cur now = false → hasPending cur = true →
      updateMembership cur p sd now = Except.error UpdateErr.pendingConflict ∧
      storedAfter cur (updateMembership cur p sd now) = cur) ∧
    (∀ m1, updateMembership cur p sd now = Except.ok m1 →
      ∀ (p2 : Plan) (sd2 : Option CalTime) (now2 : CalTime), ¬ p2 = Plan.none →
        updateMembership (some m1) p2 sd2 now2 =
          Except.error UpdateErr.pendingConflict ∧
        storedAfter (some m1) (updateMembership (some m1) p2 sd2 now2) =
          some m1) := by
  refine ⟨?_, ?_, ?_⟩
  · intro h
    have e : updateMembership cur p sd now = Except.error UpdateErr.activeConflict := by
      unfold updateMembership
      rw [if_neg hp, if_pos h]
    exact ⟨e, by rw [e]; rfl⟩
  · intro h hpend
    have e : updateMembership cur p sd now = Except.error UpdateErr.pendingConflict := by
      unfold updateMembership
      rw [if_neg hp, if_neg (by simp [h]), if_pos hpend]
    exact ⟨e, by rw [e]; rfl⟩
  · intro m1 hok p2 sd2 now2 hp2
    have hstat : m1.status = MemStatus.pending := by
      unfold updateMembership at hok
      rw [if_neg hp] at hok
      split at hok
      · exact absurd hok (by simp)
      · split at hok
        · exact absurd hok (by simp)
        · injection hok with hm
          rw [← hm]
    have e : updateMembership (some m1) p2 sd2 now2 =
        Except.error UpdateErr.pendingConflict := by
      unfold updateMembership
      rw [if_neg hp2, if_neg (by simp [hasActiveUnexpired, hstat]),
        if_pos (by simp [hasPending, hstat])]
    exact ⟨e, by rw [e]; rfl⟩

/-- Witness for C3: while a request is pending, a second request for the
same plan is answered with the pending conflict and the stored pending
membership is unchanged. -/
theorem updateMembershipConflictsWitness :
    updateMembership (some mPendingSample) Plan.threeMonth Option.none tNow =
      Except.error UpdateErr.pendingConflict ∧
    storedAfter (some mPendingSample)
      (updateMembership (some mPendingSample) Plan.threeMonth Option.none tNow) =
      some mPendingSample :=
  (updateMembershipConflicts (some mPendingSample) Plan.threeMonth
    Option.none tNow (by decide)).2.1 (by decide) (by decide)

/-- Counterexample to C4: a plan request issued while the membership is
active and unexpired is rejected with the conflict answer, so no request
ever extends an active unexpired plan, and in particular the start of the
new period is never taken from the current expiry. -/
theorem activeRenewalRejected :
    updateMembership (some mActiveFuture) Plan.oneMonth Option.none tNow =
      Except.error UpdateErr.activeConflict ∧
    hasActiveUnexpired (some mActiveFuture) tNow = true := by
  constructor
  · rfl
  · decide

/-- C4 as amended: a plan request that is accepted computes expiry as
start plus the plan duration in calendar months (1, 3, 6, or 12, added
calendar-wise by month arithmetic with end-of-month clamping, not as a
fixed day count), where start is the caller-supplied startDate or now;
and a request made while a membership is active and unexpired is rejected
with the conflict answer, so the extend-from-current-expiry renewal of
the claim does not occur. -/
theorem updateMembershipExpiryCalendar (cur : Option Membership) (p : Plan)
    (sd : Option CalTime) (now : CalTime) (hp : ¬ p = Plan.none)
    (hact : hasActiveUnexpired cur now = false)
    (hpend : hasPending cur = false) :
    updateMembership cur p sd now = Except.ok
      { plan := p
        startDate := some (sd.getD now)
        expiryDate := some ((sd.getD now).addMonths (planMonths p))
        status := MemStatus.pending
        monthlyDayCount := (cur.map Membership.monthlyDayCount).getD 0
        lastResetDate := some ((cur.bind Membership.lastResetDate).getD now) } ∧
    (∀ now2, hasActiveUnexpired cur now2 = true →
      updateMembership cur p sd now2 = Except.error UpdateErr.activeConflict) := by
  constructor
  · unfold updateMembership
    rw [if_neg hp, if_neg (by simp [hact]), if_neg (by simp [hpend])]
    rfl
  · intro now2 h2
    unfold updateMembership
    rw [if_neg hp, if_pos h2]

/-- Witness for C4: a renewal request by the expired sample member starts
now and expires exactly three calendar months later, carrying the old
usage counter and reset date forward. -/
theorem updateMembershipExpiryCalendarWitness :
    updateMembership (some mExpiredSample) Plan.threeMonth Option.none tNow =
      Except.ok
        { plan := Plan.threeMonth
          startDate := some tNow
          expiryDate := some (tNow.addMonths 3)
          status := MemStatus.pending
          monthlyDayCount := 3
          lastResetDate := some ⟨2024, 1, 1, 4, 0, 0⟩ } :=
  (updateMembershipExpiryCalendar (some mExpiredSample) Plan.threeMonth
    Option.none tNow (by decide) (by decide) (by decide)).1

/-- Counterexample to C1: approving a member who has only the
schema-default membership yields an active membership whose plan is none
and whose expiry date is unset, violating the claimed invariant; the
admission registration path even creates an active membership with plan
none directly. -/
theorem approveDefaultMembershipViolation :
    approveMembership (some (defaultMembership tJan)) =
      Except.ok { defaultMembership tJan with status := MemStatus.active } ∧
    ¬ membershipInvariant { defaultMembership tJan with status := MemStatus.active } ∧
    ¬ membershipInvariant (admissionMembership tJan) := by
  refine ⟨rfl, ?_, ?_⟩
  · intro h
    exact (h rfl).1 rfl
  · intro h
    exact (h rfl).1 rfl

/-- C1 as amended: a membership created by a plan request always has a
real plan and a set expiry date, and this property is preserved by every
mutating Ledger operation (approval, self-service clock-in, staff manual
clock-in, and the expiration sweep), so the claimed invariant holds for
every member whose membership originated from a plan request; the
unrestricted claim fails because approving a schema-default membership
(and the admission registration path) yields an active membership with
plan none. -/
theorem ledgerPlanExpiryPreserved :
    (∀ (cur : Option Membership) (p : Plan) (sd : Option CalTime)
      (now : CalTime) (m : Membership),
      updateMembership cur p sd now = Except.ok m → planExpirySet m) ∧
    (∀ m m2 : Membership, approveMembership (some m) = Except.ok m2 →
      planExpirySet m → planExpirySet m2) ∧
    (∀ (geo : Rat → Rat → Bool) (lat lon : Rat) (st : MemberState)
      (now : CalTime),
      optionInv planExpirySet st.membership →
      optionInv planExpirySet ((clockIn geo lat lon st now).2).membership) ∧
    (∀ (st : MemberState) (now : CalTime),
      optionInv planExpirySet st.membership →
      optionInv planExpirySet ((adminClockIn st now).2).membership) ∧
    (∀ (users : List LedgerUser) (now : CalTime) (k : Nat)
      (i : Nat) (h : i < users.length)
      (h2 : i < ((expireMemberships users now k).1).length),
      optionInv planExpirySet ((users.get ⟨i, h⟩).membership) →
      optionInv planExpirySet
        ((((expireMemberships users now k).1).get ⟨i, h2⟩).membership)) := by
  refine ⟨?_, ?_, ?_, ?_, ?_⟩
  · intro cur p sd now m hok
    unfold updateMembership at hok
    split at hok
    · exact absurd hok (by simp)
    · split at hok
      · exact absurd hok (by simp)
      · split at hok
        · exact absurd hok (by simp)
        · injection hok with hm
          rw [← hm]
          next hp _ _ => exact ⟨hp, rfl⟩
  · intro m m2 hok hps
    have hm : { m with status := MemStatus.active } = m2 := by
      injection hok
    rw [← hm]
    exact hps
  · intro geo lat lon st now hinv
    rcases st with ⟨mem, sess⟩
    rcases mem with _ | m
    · unfold clockIn
      dsimp only
      split_ifs <;> exact hinv
    · unfold clockIn
      dsimp only
      split_ifs <;>
        first
          | exact hinv
          | exact planExpirySet_update now m hinv _ _
  · intro st now hinv
    rcases st with ⟨mem, sess⟩
    rcases mem with _ | m
    · unfold adminClockIn
      dsimp only
      split_ifs <;> exact hinv
    · unfold adminClockIn
      dsimp only
      split_ifs <;> exact hinv
  · intro users now k i h h2 hinv
    have hmem : ((expireMemberships users now k).1).get ⟨i, h2⟩ =
        (if shouldExpire now.startOfDay (users.get ⟨i, h⟩) then
          expireUser (users.get ⟨i, h⟩) else users.get ⟨i, h⟩) := by
      simp [expireMemberships, List.get_eq_getElem, List.getElem_map]
    rw [hmem]
    split
    · rcases hu : (users.get ⟨i, h⟩).membership with _ | m
      · unfold expireUser
        rw [hu]
        simpa [optionInv, hu] using hinv
      · unfold expireUser
        rw [hu]
        rw [hu] at hinv
        exact ⟨hinv.1, hinv.2⟩
    · exact hinv

/-- Witness for C1: a self-service clock-in by the June member preserves
the real-plan-and-expiry property of the stored membership. -/
theorem ledgerPlanExpiryPreservedWitness :
    optionInv planExpirySet ((clockIn geoAlways 1 1 stJune tNow).2).membership :=
  ledgerPlanExpiryPreserved.2.2.1 geoAlways 1 1 stJune tNow ⟨by decide, rfl⟩

/-- Counterexample to C6: the staff manual clock-in performs no
monthly-cap check, so for an active member already at the cap of 26 it
succeeds and pushes the counter to 27 while the status stays active,
violating the claimed invariant. -/
theorem adminClockInExceedsCap :
    (adminClockIn stCap tNow).1 = AdminClockInResult.success ∧
    ((adminClockIn stCap tNow).2).membership.map Membership.monthlyDayCount =
      some 27 ∧
    ((adminClockIn stCap tNow).2).membership.map Membership.status =
      some MemStatus.active ∧
    ¬ capInvariant ((adminClockIn stCap tNow).2) := by
  refine ⟨rfl, rfl, rfl, ?_⟩
  intro h
  exact absurd (h rfl) (by decide)

/-- C6 as amended: the self-service clock-in preserves the invariant that
the monthly counter of an active membership never exceeds the cap of 26
(it refuses with the cap error before incrementing); the invariant does
not hold for the staff manual clock-in, which performs no cap check. -/
theorem clockInCapInvariant (geo : Rat → Rat → Bool) (lat lon : Rat)
    (st : MemberState) (now : CalTime) (h : capInvariant st) :
    capInvariant (clockIn geo lat lon st now).2 := by
  rcases st with ⟨mem, sess⟩
  rcases mem with _ | m
  · unfold clockIn
    dsimp only
    split_ifs <;> exact h
  · unfold clockIn
    dsimp only
    split_ifs with hc1 hc2 hc3 hc4 hc5 hc6 hc7 hc8
    · exact h
    · exact h
    · exact h
    · exact h
    · exact h
    · exact h
    · intro hcon
      simp at hcon
    · exact h
    · intro _
      dsimp only
      unfold MONTHLY_CAP at hc6 ⊢
      omega

/-- Witness for C6: a clock-in by the June member, whose counter is
within the cap, keeps the counter within the cap. -/
theorem clockInCapInvariantWitness :
    capInvariant (clockIn geoAlways 1 1 stJune tNow).2 :=
  clockInCapInvariant geoAlways 1 1 stJune tNow (fun _ => by decide)

theorem shouldExpire_step (cutoff : CalTime) (u : LedgerUser) :
    shouldExpire cutoff
      (if shouldExpire cutoff u then expireUser u else u) = false := by
  split
  next hs =>
    unfold expireUser
    rcases hu : u.membership with _ | m
    · unfold shouldExpire at hs
      rw [hu] at hs
      exact absurd hs (by simp)
    · simp [shouldExpire]
  next hs => simpa using hs

theorem expireMap_fixed (cutoff : CalTime) (users : List LedgerUser) :
    ((users.map (fun u => if shouldExpire cutoff u then expireUser u else u)).filter
      (shouldExpire cutoff) = []) ∧
    ((users.map (fun u => if shouldExpire cutoff u then expireUser u else u)).map
      (fun u => if shouldExpire cutoff u then expireUser u else u) =
      users.map (fun u => if shouldExpire cutoff u then expireUser u else u)) := by
  induction users with
  | nil => exact ⟨rfl, rfl⟩
  | cons u rest ih =>
    constructor
    · simp only [List.map_cons, List.filter_cons, shouldExpire_step]
      simpa using ih.1
    · simp only [List.map_cons]
      rw [if_neg (by simp [shouldExpire_step])]
      rw [ih.2]

/-- Counterexample to C7: a member whose membership is active and whose
expiry passed earlier on the very day of the sweep (expiryDate before
now, but not before the start of the day) is not transitioned and not
notified, because the sweep only matches expiry dates strictly before the
start of the current day. -/
theorem sameDayExpiryNotSwept :
    expireMemberships [u7] tNow 1 = ([u7], [], 0) ∧
    CalTime.ltB e7 tNow = true ∧
    u7.membership.map Membership.status = some MemStatus.active ∧
    u7.membership.bind Membership.expiryDate = some e7 := by
  refine ⟨?_, by decide, rfl, rfl⟩
  decide

/-- C7 as amended: each run of the expiration sweep transitions exactly
the members with status active and expiryDate strictly before the start
of the current day (not before now) to expired, leaves everyone else
untouched, sends one notification per affected member plus one aggregated
notice to each of the staff accounts when anyone was affected, and a
second run on the same day transitions and notifies nobody, because the
first run removed the active status of every matching member. -/
theorem expireMembershipsSpec (users : List LedgerUser) (now now2 : CalTime)
    (k : Nat) :
    ((expireMemberships users now k).1.length = users.length) ∧
    (∀ i (h : i < users.length) (h2 : i < (expireMemberships users now k).1.length),
      (shouldExpire now.startOfDay (users.get ⟨i, h⟩) = true →
        ((expireMemberships users now k).1).get ⟨i, h2⟩ =
          expireUser (users.get ⟨i, h⟩)) ∧
      (shouldExpire now.startOfDay (users.get ⟨i, h⟩) = false →
        ((expireMemberships users now k).1).get ⟨i, h2⟩ = users.get ⟨i, h⟩)) ∧
    ((expireMemberships users now k).2.1 =
      (users.filter (shouldExpire now.startOfDay)).map LedgerUser.id) ∧
    ((expireMemberships users now k).2.2 =
      if (users.filter (shouldExpire now.startOfDay)).length = 0 then 0 else k) ∧
    (now2.startOfDay = now.startOfDay →
      expireMemberships (expireMemberships users now k).1 now2 k =
        ((expireMemberships users now k).1, [], 0)) := by
  refine ⟨by simp [expireMemberships], ?_, rfl, rfl, ?_⟩
  · intro i h h2
    have hget : ((expireMemberships users now k).1).get ⟨i, h2⟩ =
        (if shouldExpire now.startOfDay (users.get ⟨i, h⟩) then
          expireUser (users.get ⟨i, h⟩) else users.get ⟨i, h⟩) := by
      simp [expireMemberships, List.get_eq_getElem, List.getElem_map]
    constructor
    · intro hs
      rw [hget, if_pos hs]
    · intro hs
      have hs2 : ¬ shouldExpire now.startOfDay (users.get ⟨i, h⟩) = true := by
        simp only [List.get_eq_getElem] at hs
        simp [hs]
      rw [hget, if_neg hs2]
  · intro hday
    have hfix := expireMap_fixed now.startOfDay users
    unfold expireMemberships
    rw [hday]
    simp only []
    rw [hfix.1, hfix.2]
    rfl

/-- Witness for C7: sweeping the sample store twice on the same day, the
second run transitions and notifies nobody. -/
theorem expireMembershipsSpecWitness :
    expireMemberships (expireMemberships [u7] tNow 1).1 tNow 1 =
      ((expireMemberships [u7] tNow 1).1, [], 0) :=
  (expireMembershipsSpec [u7] tNow tNow 1).2.2.2.2 rfl

theorem goodAttempt_unpack (lastReset expiry : Option CalTime) (t : CalTime)
    (hgood : goodAttempt lastReset expiry t = true) :
    t.dow ≠ 6 ∧ 5 ≤ t.hour ∧ t.hour < 20 ∧
    monthRollover t lastReset = false ∧ expiredAt expiry t = false := by
  have h : (((¬ t.dow = 6 ∧ 5 ≤ t.hour) ∧ t.hour < 20) ∧
      monthRollover t lastReset = false) ∧ expiredAt expiry t = false := by
    simpa [goodAttempt, Bool.and_eq_true, decide_eq_true_eq,
      Bool.not_eq_true'] using hgood
  exact ⟨h.1.1.1.1, h.1.1.1.2, h.1.1.2, h.1.2, h.2⟩

theorem clockIn_success_step (geo : Rat → Rat → Bool) (lat lon : Rat)
    (hlat : ¬ lat = 0) (hlon : ¬ lon = 0) (hgeo : geo lat lon = true)
    (m : Membership) (sess : List Session) (t : CalTime)
    (hstat : m.status = MemStatus.active) (hplan : ¬ m.plan = Plan.none)
    (hcap : m.monthlyDayCount < MONTHLY_CAP)
    (hgood : goodAttempt m.lastResetDate m.expiryDate t = true)
    (hany : sess.any (fun s => s.date == t.dateKey) = false) :
    clockIn geo lat lon ⟨some m, sess⟩ t =
      (ClockInResult.success,
        ⟨some { m with monthlyDayCount := m.monthlyDayCount + 1 },
         { date := t.dateKey, clockIn := t, clockOut := Option.none,
           late := isLate t } :: sess⟩) := by
  obtain ⟨hdow, hh5, hh20, hroll, hexp⟩ := goodAttempt_unpack _ _ _ hgood
  have hreset : resetIfRollover t m = m := by
    unfold resetIfRollover
    rw [if_neg (by simp [hroll])]
  unfold clockIn
  rw [if_neg (not_or.mpr ⟨hlat, hlon⟩), if_neg (by simp [hgeo]),
    if_neg (by simp [hdow]), if_neg (by simp [decide_eq_true_eq]; omega)]
  dsimp only
  rw [hreset]
  rw [if_neg (by simp [hplan, hstat]), if_neg (Nat.not_le.mpr hcap),
    if_neg (by simp [hexp]), if_neg (by simp [hany])]
  simp [hstat]

theorem clockIn_rollover_step (geo : Rat → Rat → Bool) (lat lon : Rat)
    (hlat : ¬ lat = 0) (hlon : ¬ lon = 0) (hgeo : geo lat lon = true)
    (m : Membership) (sess : List Session) (t : CalTime)
    (hstat : m.status = MemStatus.active) (hplan : ¬ m.plan = Plan.none)
    (hroll : monthRollover t m.lastResetDate = true)
    (hdow : t.dow ≠ 6) (hh5 : 5 ≤ t.hour) (hh20 : t.hour < 20)
    (hexp : expiredAt m.expiryDate t = false)
    (hany : sess.any (fun s => s.date == t.dateKey) = false) :
    clockIn geo lat lon ⟨some m, sess⟩ t =
      (ClockInResult.success,
        ⟨some { m with monthlyDayCount := 1, lastResetDate := some t },
         { date := t.dateKey, clockIn := t, clockOut := Option.none,
           late := isLate t } :: sess⟩) := by
  have hreset : resetIfRollover t m =
      { m with monthlyDayCount := 0, lastResetDate := some t } := by
    unfold resetIfRollover
    rw [if_pos hroll]
  unfold clockIn
  rw [if_neg (not_or.mpr ⟨hlat, hlon⟩), if_neg (by simp [hgeo]),
    if_neg (by simp [hdow]), if_neg (by simp [decide_eq_true_eq]; omega)]
  dsimp only
  rw [hreset]
  rw [if_neg (by simp [hplan, hstat]), if_neg (by simp [MONTHLY_CAP]),
    if_neg (by simp [hexp]), if_neg (by simp [hany])]
  simp [hstat]

theorem clockIn_cap_step (geo : Rat → Rat → Bool) (lat lon : Rat)
    (hlat : ¬ lat = 0) (hlon : ¬ lon = 0) (hgeo : geo lat lon = true)
    (st : MemberState) (m : Membership) (t : CalTime)
    (hmem : st.membership = some m)
    (hstat : m.status = MemStatus.active) (hplan : ¬ m.plan = Plan.none)
    (hcap : MONTHLY_CAP ≤ m.monthlyDayCount)
    (hgood : goodAttempt m.lastResetDate m.expiryDate t = true) :
    (clockIn geo lat lon st t).1 = ClockInResult.capExceeded := by
  obtain ⟨hdow, hh5, hh20, hroll, hexp⟩ := goodAttempt_unpack _ _ _ hgood
  have hreset : resetIfRollover t m = m := by
    unfold resetIfRollover
    rw [if_neg (by simp [hroll])]
  rcases st with ⟨mem, sess⟩
  have hmem2 : mem = some m := hmem
  subst hmem2
  unfold clockIn
  rw [if_neg (not_or.mpr ⟨hlat, hlon⟩), if_neg (by simp [hgeo]),
    if_neg (by simp [hdow]), if_neg (by simp [decide_eq_true_eq]; omega)]
  dsimp only
  rw [hreset]
  rw [if_neg (by simp [hplan, hstat]), if_pos hcap]

theorem runClockIns_success (geo : Rat → Rat → Bool) (lat lon : Rat)
    (hlat : ¬ lat = 0) (hlon : ¬ lon = 0) (hgeo : geo lat lon = true) :
    ∀ (ts : List CalTime) (sess : List Session) (m : Membership),
    m.status = MemStatus.active → ¬ m.plan = Plan.none →
    m.monthlyDayCount + ts.length ≤ MONTHLY_CAP →
    ts.all (goodAttempt m.lastResetDate m.expiryDate) = true →
    freshDays (sess.map Session.date) ts = true →
    (runClockIns geo lat lon ⟨some m, sess⟩ ts).2 =
      List.replicate ts.length ClockInResult.success ∧
    (runClockIns geo lat lon ⟨some m, sess⟩ ts).1.membership =
      some { m with monthlyDayCount := m.monthlyDayCount + ts.length } := by
  intro ts
  induction ts with
  | nil =>
    intro sess m hstat hplan hcnt hall hfresh
    exact ⟨rfl, rfl⟩
  | cons t ts ih =>
    intro sess m hstat hplan hcnt hall hfresh
    rw [List.all_cons, Bool.and_eq_true] at hall
    obtain ⟨hgood, hall2⟩ := hall
    simp only [freshDays, Bool.and_eq_true, Bool.not_eq_true'] at hfresh
    obtain ⟨hcont, hfresh2⟩ := hfresh
    have hany : sess.any (fun s => s.date == t.dateKey) = false := by
      rw [← contains_map_date]
      exact hcont
    rw [List.length_cons] at hcnt
    have hcap : m.monthlyDayCount < MONTHLY_CAP := by
      unfold MONTHLY_CAP at hcnt ⊢
      omega
    have hstep := clockIn_success_step geo lat lon hlat hlon hgeo m sess t
      hstat hplan hcap hgood hany
    have hm2 := ih (Session.mk t.dateKey t Option.none (isLate t) :: sess)
      { m with monthlyDayCount := m.monthlyDayCount + 1 }
      hstat hplan
      (by dsimp only; unfold MONTHLY_CAP at hcnt ⊢; omega)
      hall2 hfresh2
    simp only [runClockIns]
    rw [hstep]
    dsimp only
    constructor
    · rw [hm2.1]
      simp [List.replicate_succ]
    · rw [hm2.2]
      dsimp only
      simp only [List.length_cons]
      congr 2
      omega

/-- C5: within one calendar month (no rollover relative to the stored
reset date), starting from counter 0, a sequence of 26 well-formed
clock-in attempts on fresh days all succeed, and a 27th attempt in the
same month is answered with the monthly-cap error; and on the first
attempt after a calendar month rollover (month or year of now differs
from lastResetDate) the counter is reset before the increment, so the
attempt succeeds with the stored counter equal to 1 whatever its previous
value. -/
theorem clockInMonthlyCap (geo : Rat → Rat → Bool) (lat lon : Rat)
    (hlat : ¬ lat = 0) (hlon : ¬ lon = 0) (hgeo : geo lat lon = true)
    (m : Membership) (ts : List CalTime) (tNext : CalTime)
    (hstat : m.status = MemStatus.active) (hplan : ¬ m.plan = Plan.none)
    (hcnt : m.monthlyDayCount = 0) (hlen : ts.length = 26)
    (hall : ts.all (goodAttempt m.lastResetDate m.expiryDate) = true)
    (hfresh : freshDays [] ts = true)
    (hgoodNext : goodAttempt m.lastResetDate m.expiryDate tNext = true) :
    (runClockIns geo lat lon ⟨some m, []⟩ ts).2 =
      List.replicate 26 ClockInResult.success ∧
    (clockIn geo lat lon (runClockIns geo lat lon ⟨some m, []⟩ ts).1 tNext).1 =
      ClockInResult.capExceeded ∧
    (∀ (st2 : MemberState) (m2 : Membership) (t2 : CalTime),
      st2.membership = some m2 → m2.status = MemStatus.active →
      ¬ m2.plan = Plan.none → monthRollover t2 m2.lastResetDate = true →
      t2.dow ≠ 6 → 5 ≤ t2.hour → t2.hour < 20 →
      expiredAt m2.expiryDate t2 = false →
      st2.sessions.any (fun s => s.date == t2.dateKey) = false →
      (clockIn geo lat lon st2 t2).1 = ClockInResult.success ∧
      ((clockIn geo lat lon st2 t2).2).membership =
        some { m2 with monthlyDayCount := 1, lastResetDate := some t2 }) := by
  have hrun := runClockIns_success geo lat lon hlat hlon hgeo ts [] m hstat hplan
    (by rw [hcnt, hlen]; decide) hall hfresh
  refine ⟨?_, ?_, ?_⟩
  · rw [hrun.1, hlen]
  · refine clockIn_cap_step geo lat lon hlat hlon hgeo _ _ tNext hrun.2 hstat
      hplan ?_ hgoodNext
    show MONTHLY_CAP ≤ m.monthlyDayCount + ts.length
    rw [hcnt, hlen]
    decide
  · intro st2 m2 t2 hmem hstat2 hplan2 hroll2 hdow2 hh5 hh20 hexp2 hany2
    rcases st2 with ⟨mem2, sess2⟩
    have hmemb : mem2 = some m2 := hmem
    subst hmemb
    have hstep := clockIn_rollover_step geo lat lon hlat hlon hgeo m2 sess2 t2
      hstat2 hplan2 hroll2 hdow2 hh5 hh20 hexp2 hany2
    rw [hstep]
    exact ⟨rfl, rfl⟩

/-- Witness for C5: the June member with counter 0 succeeds on all 26
June attempts, is refused with the cap error on June 27, and the capped
member clocking in on July 1 (month rollover) succeeds with the counter
stored as 1. -/
theorem clockInMonthlyCapWitness :
    (runClockIns geoAlways 1 1 ⟨some mJune, []⟩ juneTimes).2 =
      List.replicate 26 ClockInResult.success ∧
    (clockIn geoAlways 1 1 (runClockIns geoAlways 1 1 ⟨some mJune, []⟩
        juneTimes).1 tJune27).1 = ClockInResult.capExceeded ∧
    (clockIn geoAlways 1 1 stCap tJuly).1 = ClockInResult.success ∧
    ((clockIn geoAlways 1 1 stCap tJuly).2).membership =
      some { mCap with monthlyDayCount := 1, lastResetDate := some tJuly } := by
  have h := clockInMonthlyCap geoAlways 1 1 (by decide) (by decide) rfl mJune
    juneTimes tJune27 rfl (by decide) rfl (by decide) (by decide) (by decide)
    (by decide)
  have h3 := h.2.2 stCap mCap tJuly rfl rfl (by decide) (by decide) (by decide)
    (by decide) (by decide) (by decide) rfl
  exact ⟨h.1, h.2.1, h3.1, h3.2⟩

end Gym
